import Mathlib

/-
  Verification development for SystemdJournal2Gelf (SystemdJournal2Gelf.go).

  The program's normalization and delivery pipeline is shallowly embedded:
  * the regular expressions of `messageReplace` are embedded as concrete
    syntax trees over a small regex language together with a leftmost-first
    backtracking matcher mirroring Go's regexp semantics on these patterns
    (no alternation or unbounded star occurs in any of the patterns, so the
    language needs only literals, character classes, greedy `?`, greedy `+`
    over a class, bounded repetition, and capture groups);
  * `SystemdJournalEntry.process`, `toGelf`, `isJsonMessage` and `send` are
    translated function by function;
  * `encoding/json.Unmarshal` into `map[string]interface{}` (an external
    library the program calls) is modelled by an executable JSON parser over
    an inductive value type, and Go maps by association lists;
  * the lock/slot interplay of `main` and `writePendingEntry` is modelled by
    the sequences of atomic actions each path performs, in program order.

  Note on the source pattern for key "*": its text contains `{0-3}`, which is
  not a valid Go repetition operator (`{0,3}` would be); Go's regexp parser
  therefore treats `{`, `0`, `-`, `3`, `}` as five literal characters.  The
  embedding reproduces exactly that reading.
-/

/-! ## A small regex language (covers every pattern in `messageReplace`) -/

/-- Character classes as lists of inclusive ranges; a single character `c`
is the range `(c, c)`. -/
abbrev CClass := List (Char × Char)

/-- Regex syntax needed by the eight patterns of `messageReplace`:
literal strings, character classes, greedy `?`, greedy `+` over a class,
concatenation and numbered capture groups.  Anchoring (`^`) and bounded
repetition (`{n}`) are handled outside the syntax: anchoring as a flag of
`Rule`, `{n}` by `reN` which unfolds it into `n` concatenated copies. -/
inductive Re where
  | eps : Re
  | strLit : List Char → Re
  | cls : CClass → Re
  | plus : CClass → Re
  | opt : Re → Re
  | cat : Re → Re → Re
  | group : Nat → Re → Re
deriving DecidableEq, Repr

/-- Captured submatches: capture-group index to captured characters.  Updates
are consed on the front, so a lookup sees the most recent (Go keeps the last
iteration of a repeated group). -/
abbrev Caps := List (Nat × List Char)

def getCap (caps : Caps) (i : Nat) : List Char :=
  match caps with
  | [] => []
  | kv :: r => if kv.1 = i then kv.2 else getCap r i

def classMem (cs : CClass) (c : Char) : Bool :=
  cs.any fun p => decide (p.1 ≤ c) && decide (c ≤ p.2)

/-- Length of the maximal leading run of characters of class `cs`. -/
def runLen (cs : CClass) : List Char → Nat
  | [] => 0
  | c :: s => if classMem cs c then runLen cs s + 1 else 0

/-- All ways the regex can match a prefix of `s`, as `(rest, captures)`
pairs in backtracking preference order (greedy, leftmost-first): the first
element is the match Go's regexp engine commits to.  Fuel only bounds the
recursion depth, which is at most the size of the regex; every call in this
file supplies `matchFuel`, which is far larger than any pattern here. -/
def mA (fuel : Nat) (r : Re) (s : List Char) (caps : Caps) : List (List Char × Caps) :=
  match fuel with
  | 0 => []
  | fuel + 1 =>
    match r with
    | .eps => [(s, caps)]
    | .strLit l => if l.isPrefixOf s then [(s.drop l.length, caps)] else []
    | .cls cs =>
      match s with
      | [] => []
      | c :: s1 => if classMem cs c then [(s1, caps)] else []
    | .plus cs =>
      let k := runLen cs s
      (List.range k).map fun i => (s.drop (k - i), caps)
    | .opt r1 => mA fuel r1 s caps ++ [(s, caps)]
    | .cat a b => (mA fuel a s caps).flatMap fun p => mA fuel b p.1 p.2
    | .group i r1 =>
      (mA fuel r1 s caps).map fun p => (p.1, (i, s.take (s.length - p.1.length)) :: p.2)

def matchFuel : Nat := 1000

/-- Leftmost-first match attempt at the current position: consumed length and
captures of the preferred match, if any. -/
def findAt (r : Re) (s : List Char) : Option (Nat × Caps) :=
  match mA matchFuel r s [] with
  | [] => none
  | p :: _ => some (s.length - p.1.length, p.2)

/-- Scan positions left to right for the first one where the regex matches,
returning `(start, length, captures)`. -/
def searchFrom (r : Re) : List Char → Nat → Option (Nat × Nat × Caps)
  | s, pos =>
    match findAt r s with
    | some (len, caps) => some (pos, len, caps)
    | none =>
      match s with
      | [] => none
      | _ :: s1 => searchFrom r s1 (pos + 1)

/-- A compiled pattern of the `messageReplace` table: whether its source began
with `^`, its syntax tree, and `SubexpNames()` (index 0 is the whole match and
is always unnamed; unnamed groups have name `""`). -/
structure Rule where
  anchored : Bool
  re : Re
  names : List (Nat × String)
deriving DecidableEq, Repr

/-- Model of `FindStringSubmatch`-style search honouring anchoring: a `^`-anchored
pattern only matches at the beginning of the text. -/
def findRule (ru : Rule) (s : List Char) : Option (Nat × Nat × Caps) :=
  if ru.anchored then (findAt ru.re s).map fun p => (0, p.1, p.2)
  else searchFrom ru.re s 0

/-- Model of `ReplaceAllString(s, "")`: remove every non-overlapping match, scanning
left to right.  After the first replacement a `^`-anchored pattern cannot
match again (the scan is no longer at the beginning of the text), so for
anchored rules at most one occurrence is removed, exactly as in Go.  A
width-zero match copies one character forward, as Go does; fuel is the
remaining text length plus one, which suffices because every recursive step
consumes at least one character. -/
def replaceAllAux (ru : Rule) : Nat → List Char → List Char
  | 0, s => s
  | fuel + 1, s =>
    match findRule ru s with
    | none => s
    | some (pos, len, _) =>
      if ru.anchored then s.take pos ++ s.drop (pos + len)
      else if len = 0 then s.take (pos + 1) ++ replaceAllAux ru fuel (s.drop (pos + 1))
      else s.take pos ++ replaceAllAux ru fuel (s.drop (pos + len))

def replaceAllEmpty (ru : Rule) (s : List Char) : List Char :=
  replaceAllAux ru (s.length + 1) s

def strReplaceAll (ru : Rule) (s : String) : String :=
  ⟨replaceAllEmpty ru s.data⟩

def findRuleStr (ru : Rule) (s : String) : Option (Nat × Nat × Caps) :=
  findRule ru s.data

/-! ## The `messageReplace` table (SystemdJournal2Gelf.go lines 62-71) -/

def catList : List Re → Re
  | [] => .eps
  | [r] => r
  | r :: rest => .cat r (catList rest)

/-- Bounded repetition `r{n}` unfolded into `n` concatenated copies. -/
def reN : Nat → Re → Re
  | 0, _ => .eps
  | n + 1, r => .cat r (reN n r)

def ccDigit : CClass := [('0', '9')]
def cc01 : CClass := [('0', '1')]
def cc0123 : CClass := [('0', '3')]
def cc02 : CClass := [('0', '2')]
def cc05 : CClass := [('0', '5')]
def ccComma09 : CClass := [(',', ','), ('0', '9')]
def ccAZ : CClass := [('A', 'Z')]
def ccaz : CClass := [('a', 'z')]
def ccSlashDash : CClass := [('/', '/'), ('-', '-')]
def ccSp09 : CClass := [(' ', ' '), ('0', '9')]
def cc09AZ : CClass := [('0', '9'), ('A', 'Z')]
def ccPool : CClass := [('a', 'z'), ('_', '_'), ('0', '9'), ('[', '['), (']', ']'), ('-', '-')]
def ccAP : CClass := [('A', 'A'), ('P', 'P')]

/-- Key "*": `^20[0-9][0-9][/\-][01][0-9][/\-][0123][0-9] [0-2]?[0-9]:[0-5][0-9]:[0-5][0-9][,0-9]{0-3} `.
`{0-3}` is not a valid repetition, so Go parses it as the five literal
characters `{`, `0`, `-`, `3`, `}` following one mandatory `[,0-9]` character. -/
def starRule : Rule :=
  { anchored := true
    re := catList [.strLit "20".data, .cls ccDigit, .cls ccDigit, .cls ccSlashDash, .cls cc01,
                   .cls ccDigit, .cls ccSlashDash, .cls cc0123, .cls ccDigit, .strLit " ".data,
                   .opt (.cls cc02), .cls ccDigit, .strLit ":".data, .cls cc05, .cls ccDigit,
                   .strLit ":".data, .cls cc05, .cls ccDigit, .cls ccComma09,
                   .strLit "\x7b0-3\x7d ".data]
    names := [(0, "")] }

/-- Key "nginx": `\[(?P<Priority>[a-z]+)\] ` (unanchored). -/
def nginxRule : Rule :=
  { anchored := false
    re := catList [.strLit "[".data, .group 1 (.plus ccaz), .strLit "] ".data]
    names := [(0, ""), (1, "Priority")] }

/-- Key "java": `(?P<Priority>[A-Z]+): ` (unanchored). -/
def javaRule : Rule :=
  { anchored := false
    re := catList [.group 1 (.plus ccAZ), .strLit ": ".data]
    names := [(0, ""), (1, "Priority")] }

/-- Key "mysqld": `^[0-9]+ \[(?P<Priority>[A-Z][a-z]+)\] `. -/
def mysqldRule : Rule :=
  { anchored := true
    re := catList [.plus ccDigit, .strLit " [".data,
                   .group 1 (.cat (.cls ccAZ) (.plus ccaz)), .strLit "] ".data]
    names := [(0, ""), (1, "Priority")] }

/-- Key "searchd": `^\[([A-Z][a-z]{2} ){2} [0-9]+ [0-2][0-9]:[0-5][0-9]:[0-5][0-9]\.[0-9]{3} 20[0-9][0-9]\] \[[ 0-9]+\] `.
The repeated unnamed group keeps its last iteration, as in Go. -/
def searchdRule : Rule :=
  { anchored := true
    re := catList [.strLit "[".data,
                   reN 2 (.group 1 (catList [.cls ccAZ, .cls ccaz, .cls ccaz, .strLit " ".data])),
                   .strLit " ".data, .plus ccDigit, .strLit " ".data, .cls cc02, .cls ccDigit,
                   .strLit ":".data, .cls cc05, .cls ccDigit, .strLit ":".data, .cls cc05,
                   .cls ccDigit, .strLit ".".data, .cls ccDigit, .cls ccDigit, .cls ccDigit,
                   .strLit " 20".data, .cls ccDigit, .cls ccDigit, .strLit "] [".data,
                   .plus ccSp09, .strLit "] ".data]
    names := [(0, ""), (1, "")] }

/-- Key "jenkins": `^[A-Z][a-z]{2} [01][0-9], 20[0-9][0-9] [0-2]?[0-9]:[0-5][0-9]:[0-5][0-9] [AP]M `. -/
def jenkinsRule : Rule :=
  { anchored := true
    re := catList [.cls ccAZ, .cls ccaz, .cls ccaz, .strLit " ".data, .cls cc01, .cls ccDigit,
                   .strLit ", 20".data, .cls ccDigit, .cls ccDigit, .strLit " ".data,
                   .opt (.cls cc02), .cls ccDigit, .strLit ":".data, .cls cc05, .cls ccDigit,
                   .strLit ":".data, .cls cc05, .cls ccDigit, .strLit " ".data, .cls ccAP,
                   .strLit "M ".data]
    names := [(0, "")] }

/-- Key "php-fpm": `^pool [a-z_0-9\[\]\-]+: `. -/
def phpfpmRule : Rule :=
  { anchored := true
    re := catList [.strLit "pool ".data, .plus ccPool, .strLit ": ".data]
    names := [(0, "")] }

/-- Key "syncthing": `^\[[0-9A-Z]{5}\] [0-2][0-9]:[0-5][0-9]:[0-5][0-9] (?P<Priority>INFO): `. -/
def syncthingRule : Rule :=
  { anchored := true
    re := catList [.strLit "[".data, reN 5 (.cls cc09AZ), .strLit "] ".data, .cls cc02,
                   .cls ccDigit, .strLit ":".data, .cls cc05, .cls ccDigit, .strLit ":".data,
                   .cls cc05, .cls ccDigit, .strLit " ".data, .group 1 (.strLit "INFO".data),
                   .strLit ": ".data]
    names := [(0, ""), (1, "Priority")] }

/-- The `messageReplace` map: facility key to compiled pattern; a missing key
is `none` (Go's nil). -/
def messageReplace (k : String) : Option Rule :=
  if k = "*" then some starRule
  else if k = "nginx" then some nginxRule
  else if k = "java" then some javaRule
  else if k = "mysqld" then some mysqldRule
  else if k = "searchd" then some searchdRule
  else if k = "jenkins" then some jenkinsRule
  else if k = "php-fpm" then some phpfpmRule
  else if k = "syncthing" then some syncthingRule
  else none

/-! ## The `priorities` table (lines 73-86) -/

/-- Go's `priorities[strings.ToLower(word)]` map lookup; a missing key yields
the zero value of `int32`, hence the final `0`. -/
def priorities (s : String) : Int :=
  if s = "emergency" then 0
  else if s = "emerg" then 0
  else if s = "alert" then 1
  else if s = "critical" then 2
  else if s = "crit" then 2
  else if s = "error" then 3
  else if s = "err" then 3
  else if s = "warning" then 4
  else if s = "warn" then 4
  else if s = "notice" then 5
  else if s = "info" then 6
  else if s = "debug" then 7
  else 0

/-- The keys of the `priorities` map. -/
def severityWords : List String :=
  ["emergency", "emerg", "alert", "critical", "crit", "error", "err",
   "warning", "warn", "notice", "info", "debug"]

/-- Model of `strings.ToLower` (every captured severity word in this program is
ASCII, where `Char.toLower` and Go agree). -/
def lowerStr (l : List Char) : String := ⟨l.map Char.toLower⟩

/-! ## The entry model (lines 21-59) -/

/-- The `SystemdJournalEntry` record; field defaults are Go's zero values, which is also
what `json.Unmarshal` leaves in fields absent from the input line.
`Priority` is `int32` in the source; its magnitudes here stay far below
`2^31` so it is modelled by `Int`. -/
structure SystemdJournalEntry where
  Cursor : String := ""
  Realtime_timestamp : Int := 0
  Monotonic_timestamp : String := ""
  Boot_id : String := ""
  Transport : String := ""
  Priority : Int := 0
  Syslog_facility : String := ""
  Syslog_identifier : String := ""
  Message : String := ""
  Pid : String := ""
  Uid : String := ""
  Gid : String := ""
  Comm : String := ""
  Exe : String := ""
  Cmdline : String := ""
  Systemd_cgroup : String := ""
  Systemd_session : String := ""
  Systemd_owner_uid : String := ""
  Systemd_unit : String := ""
  Source_realtime_timestamp : String := ""
  Machine_id : String := ""
  Hostname : String := ""
  Logger : String := ""
  EventId : String := ""
  Exception : String := ""
  Exception_type : String := ""
  Exception_Stacktrace : String := ""
  Inner_exception : String := ""
  Inner_exception_type : String := ""
  Inner_exception_Stacktrace : String := ""
  Status_code : String := ""
  Query_string : String := ""
  Member_id : String := ""
  Correlation_id : String := ""
  Request_path : String := ""
  Request_id : String := ""
  FullMessage : String := ""
deriving DecidableEq, Repr

/-! ## `process` (lines 144-170) -/

/-- Line 146: `this.Message = messageReplace["*"].ReplaceAllString(this.Message, "")`. -/
def stripStar (m : String) : String := strReplaceAll starRule m

/-- Lines 148-151: look up the pattern by syslog identifier, falling back to
the process comm name when the first lookup is nil. -/
def ruleFor (e : SystemdJournalEntry) : Option Rule :=
  match messageReplace e.Syslog_identifier with
  | some r => some r
  | none => messageReplace e.Comm

/-- Lines 163-167: `for idx, key := range re.SubexpNames() { if "Priority" == key
{ this.Priority = priorities[strings.ToLower(m[idx])] } }`. -/
def foldNames (names : List (Nat × String)) (caps : Caps) (p : Int) : Int :=
  names.foldl (fun acc kn => if kn.2 = "Priority" then priorities (lowerStr (getCap caps kn.1)) else acc) p

/-- Lines 148-169 of `process`, after the generic timestamp replacement. -/
def procRule (e1 : SystemdJournalEntry) : SystemdJournalEntry :=
  match ruleFor e1 with
  | none => e1
  | some ru =>
    match findRuleStr ru e1.Message with
    | none => e1
    | some pls =>
      { e1 with Priority := foldNames ru.names pls.2.2 e1.Priority
                Message := strReplaceAll ru e1.Message }

/-- The method `SystemdJournalEntry.process` (lines 144-170). -/
def process (e : SystemdJournalEntry) : SystemdJournalEntry :=
  procRule { e with Message := stripStar e.Message }

/-! ## JSON values and Go maps (model of `encoding/json` / `map[string]interface{}`) -/

/-- Dynamic JSON values, the model of Go's `interface{}` results of
`json.Unmarshal`: numbers are kept as their raw token (the program never
reads a number except to crash on the `m.(string)` type assertion, so their
numeric value is irrelevant). -/
inductive Jval where
  | str : String → Jval
  | num : String → Jval
  | bool : Bool → Jval
  | null : Jval
  | arr : List Jval → Jval
  | obj : List (String × Jval) → Jval
deriving Repr

/-- Go map read `m[k]`: `none` for a missing key. -/
def aget (m : List (String × Jval)) (k : String) : Option Jval :=
  match m with
  | [] => none
  | kv :: r => if kv.1 = k then some kv.2 else aget r k

/-- Go `delete(m, k)`. -/
def adel (m : List (String × Jval)) (k : String) : List (String × Jval) :=
  match m with
  | [] => []
  | kv :: r => if kv.1 = k then adel r k else kv :: adel r k

/-- Go map write `m[k] = v` (overwrites). -/
def aset (m : List (String × Jval)) (k : String) (v : Jval) : List (String × Jval) :=
  (k, v) :: adel m k

/-- Go's `json.Unmarshal` into a pre-populated map merges the decoded object's
keys into it, later occurrences overwriting earlier ones. -/
def mergeObj (base : List (String × Jval)) (o : List (String × Jval)) : List (String × Jval) :=
  o.foldl (fun m kv => aset m kv.1 kv.2) base

def lbraceChar : Char := Char.ofNat 123

def rbraceChar : Char := Char.ofNat 125

/-- Executable model of the JSON text parser of `encoding/json` (an external
library of the program).  It accepts the JSON the library accepts on the
inputs of interest: objects, arrays, strings with the standard escapes
(`\uXXXX` without surrogate pairing), numbers as raw tokens, booleans and
null, with insignificant whitespace. -/
def isWs (c : Char) : Bool := c = ' ' || c = '\t' || c = '\n' || c = '\r'

def skipWs : List Char → List Char
  | [] => []
  | c :: s => if isWs c then skipWs s else c :: s

def hexVal (c : Char) : Option Nat :=
  if '0' ≤ c ∧ c ≤ '9' then some (c.toNat - '0'.toNat)
  else if 'a' ≤ c ∧ c ≤ 'f' then some (c.toNat - 'a'.toNat + 10)
  else if 'A' ≤ c ∧ c ≤ 'F' then some (c.toNat - 'A'.toNat + 10)
  else none

def escChar (e : Char) : Option Char :=
  if e = '"' then some '"'
  else if e = '\\' then some '\\'
  else if e = '/' then some '/'
  else if e = 'b' then some (Char.ofNat 8)
  else if e = 'f' then some (Char.ofNat 12)
  else if e = 'n' then some '\n'
  else if e = 'r' then some '\r'
  else if e = 't' then some '\t'
  else none

/-- Parse the body of a JSON string after the opening quote; yields the
decoded characters and the rest after the closing quote.  Raw control
characters are a syntax error, as in Go. -/
def parseStringBody (fuel : Nat) (s : List Char) : Option (List Char × List Char) :=
  match fuel with
  | 0 => none
  | fuel + 1 =>
    match s with
    | [] => none
    | c :: s1 =>
      if c = '"' then some ([], s1)
      else if c = '\\' then
        match s1 with
        | [] => none
        | e :: s2 =>
          if e = 'u' then
            match s2 with
            | h1 :: h2 :: h3 :: h4 :: s3 =>
              match hexVal h1, hexVal h2, hexVal h3, hexVal h4 with
              | some a, some b, some c3, some d =>
                (parseStringBody fuel s3).map fun p =>
                  (Char.ofNat (((a * 16 + b) * 16 + c3) * 16 + d) :: p.1, p.2)
              | _, _, _, _ => none
            | _ => none
          else
            match escChar e with
            | some ec => (parseStringBody fuel s2).map fun p => (ec :: p.1, p.2)
            | none => none
      else if c.toNat < 32 then none
      else (parseStringBody fuel s1).map fun p => (c :: p.1, p.2)

def isNumChar (c : Char) : Bool :=
  c = '-' || c = '+' || c = '.' || c = 'e' || c = 'E' || ('0' ≤ c && c ≤ '9')

def parseNumber (s : List Char) : Option (Jval × List Char) :=
  let tok := s.takeWhile isNumChar
  if tok.isEmpty then none else some (.num ⟨tok⟩, s.drop tok.length)

mutual

def parseVal : Nat → List Char → Option (Jval × List Char)
  | 0, _ => none
  | fuel + 1, s =>
    match skipWs s with
    | [] => none
    | c :: s1 =>
      if c = '"' then (parseStringBody fuel s1).map fun p => (Jval.str ⟨p.1⟩, p.2)
      else if c = lbraceChar then
        match skipWs s1 with
        | c2 :: s2 =>
          if c2 = rbraceChar then some (.obj [], s2)
          else (parseMembers fuel (c2 :: s2) []).map fun p => (Jval.obj p.1, p.2)
        | [] => none
      else if c = '[' then
        match skipWs s1 with
        | c2 :: s2 =>
          if c2 = ']' then some (.arr [], s2)
          else (parseElems fuel (c2 :: s2) []).map fun p => (Jval.arr p.1, p.2)
        | [] => none
      else if c = 't' then
        if "rue".data.isPrefixOf s1 then some (.bool true, s1.drop 3) else none
      else if c = 'f' then
        if "alse".data.isPrefixOf s1 then some (.bool false, s1.drop 4) else none
      else if c = 'n' then
        if "ull".data.isPrefixOf s1 then some (.null, s1.drop 3) else none
      else parseNumber (c :: s1)

def parseMembers : Nat → List Char → List (String × Jval) → Option (List (String × Jval) × List Char)
  | 0, _, _ => none
  | fuel + 1, s, acc =>
    match skipWs s with
    | [] => none
    | c :: s1 =>
      if c = '"' then
        match parseStringBody fuel s1 with
        | none => none
        | some (key, s2) =>
          match skipWs s2 with
          | ':' :: s3 =>
            match parseVal fuel s3 with
            | none => none
            | some (v, s4) =>
              match skipWs s4 with
              | ',' :: s5 => parseMembers fuel s5 (acc ++ [(⟨key⟩, v)])
              | c6 :: s6 => if c6 = rbraceChar then some (acc ++ [(⟨key⟩, v)], s6) else none
              | [] => none
          | _ => none
      else none

def parseElems : Nat → List Char → List Jval → Option (List Jval × List Char)
  | 0, _, _ => none
  | fuel + 1, s, acc =>
    match parseVal fuel s with
    | none => none
    | some (v, s1) =>
      match skipWs s1 with
      | ',' :: s2 => parseElems fuel s2 (acc ++ [v])
      | ']' :: s2 => some (acc ++ [v], s2)
      | _ => none

end

/-- Model of `json.Unmarshal(msg, &extra)` where `extra` is a `map[string]interface{}`:
succeeds only for a complete top-level object with nothing but whitespace
after it, and yields the decoded key/value pairs in textual order. -/
def jsonUnmarshalObj (m : String) : Option (List (String × Jval)) :=
  match parseVal (2 * m.data.length + 8) m.data with
  | some (Jval.obj kvs, rest) => if skipWs rest = [] then some kvs else none
  | _ => none

/-! ## `toGelf` (lines 88-142) and `isJsonMessage` (lines 186-188) -/

/-- The test of `isJsonMessage`: `len(Message) > 64 && Message[0] == '\x7b' && Message[1] == '"'`.
The test reads the first two raw bytes of the message; it does not skip
whitespace. -/
def isJsonStr (m : String) : Bool :=
  decide (m.data.length > 64) &&
    (match m.data with
     | c0 :: c1 :: _ => c0 == lbraceChar && c1 == '"'
     | _ => false)

def isJsonMessage (e : SystemdJournalEntry) : Bool := isJsonStr e.Message

/-- Model of `strings.Index(Message, "\n") != -1`. -/
def hasNewline (m : String) : Bool := m.data.any fun c => c == '\n'

/-- Model of `strings.Split(Message, "\n")[0]`: the text before the first line break. -/
def firstLine (m : String) : String := ⟨m.data.takeWhile fun c => c != '\n'⟩

/-- Lines 89-107: the supplementary attributes map initialised from the
entry's well-known fields. -/
def baseExtra (e : SystemdJournalEntry) : List (String × Jval) :=
  [("Boot_id", .str e.Boot_id),
   ("Pid", .str e.Pid),
   ("Uid", .str e.Uid),
   ("Logger", .str e.Logger),
   ("EventId", .str e.EventId),
   ("Exception", .str e.Exception),
   ("Exception_Type", .str e.Exception_type),
   ("Exception_Stacktrace", .str e.Exception_Stacktrace),
   ("Inner_Exception", .str e.Inner_exception),
   ("Inner_Exception_Type", .str e.Inner_exception_type),
   ("Inner_Exception_Stacktrace", .str e.Inner_exception_Stacktrace),
   ("Request_Id", .str e.Request_id),
   ("Request_Path", .str e.Request_path),
   ("Status_Code", .str e.Status_code),
   ("Query_String", .str e.Query_string),
   ("Correlation_Id", .str e.Correlation_id),
   ("Member_Id", .str e.Member_id)]

/-- The outbound `gelf.Message` envelope.  `TimeUnix` is `float64(ts)/1000/1000`
in the source; the division is exact at the rational model's precision and no
claim concerns it. -/
structure GelfMessage where
  Version : String
  Host : String
  Short : String
  Full : String
  TimeUnix : Rat
  Level : Int
  Facility : String
  Extra : List (String × Jval)
deriving Repr

def mkGelf (e : SystemdJournalEntry) (short full facility : String)
    (extra : List (String × Jval)) : GelfMessage :=
  { Version := "1.1"
    Host := e.Hostname
    Short := short
    Full := full
    TimeUnix := (e.Realtime_timestamp : Rat) / 1000 / 1000
    Level := e.Priority
    Facility := facility
    Extra := extra }

/-- Lines 117-125 for one reserved key: if present with a string value,
extract it and delete the key; if present with a non-string value the type
assertion `m.(string)` panics (`none`); if absent keep the default. -/
def extractStr (m : List (String × Jval)) (k : String) (dflt : String) :
    Option (String × List (String × Jval)) :=
  match aget m k with
  | some (.str v) => some (v, adel m k)
  | some _ => none
  | none => some (dflt, m)

/-- The method `SystemdJournalEntry.toGelf` (lines 88-142).  The method mutates its
receiver's `Message`/`FullMessage`, so the model returns the envelope
together with the updated entry; `none` models the runtime panic of the
`m.(string)` type assertions. -/
def toGelf (e : SystemdJournalEntry) : Option (GelfMessage × SystemdJournalEntry) :=
  let facility := if e.Syslog_identifier = "" then e.Comm else e.Syslog_identifier
  if isJsonMessage e then
    match jsonUnmarshalObj e.Message with
    | none => some (mkGelf e e.Message e.FullMessage facility (baseExtra e), e)
    | some o =>
      match extractStr (mergeObj (baseExtra e) o) "Message" e.Message with
      | none => none
      | some (msg, extra2) =>
        match extractStr extra2 "FullMessage" e.FullMessage with
        | none => none
        | some (full, extra3) =>
          some (mkGelf e msg full facility extra3,
                { e with Message := msg, FullMessage := full })
  else if hasNewline e.Message then
    some (mkGelf e (firstLine e.Message) e.Message facility (baseExtra e),
          { e with Message := firstLine e.Message, FullMessage := e.Message })
  else
    some (mkGelf e e.Message e.FullMessage facility (baseExtra e), e)

/-! ## `send` (lines 172-184) -/

/-- Observable actions of one `send` call: a hand-off of the envelope to the
transport (`write` records whether the transport accepted it), the error
report to stderr, and the `SLEEP_AFTER_ERROR` backoff sleep. -/
inductive SendEvent where
  | write : Bool → SendEvent
  | errReport : SendEvent
  | sleep : SendEvent
deriving DecidableEq, Repr

inductive SendResult where
  | ok : List SendEvent → SystemdJournalEntry → SendResult
  | panicked : List SendEvent → SendResult
  | fuelOut : SendResult
deriving DecidableEq, Repr

/-- The method `SystemdJournalEntry.send` (lines 172-184): build the envelope with
`toGelf` (which mutates the entry), hand it to the transport; on failure
report the error, sleep, and recurse on the same (mutated) entry.  The
transport is an oracle giving the outcome of the `k`-th `WriteMessage` call;
fuel bounds the recursion depth of the model only — the program itself has
no bound. -/
def send (oracle : Nat → Bool) : Nat → Nat → SystemdJournalEntry → SendResult
  | 0, _, _ => .fuelOut
  | fuel + 1, k, e =>
    match toGelf e with
    | none => .panicked []
    | some (_, e1) =>
      if oracle k then .ok [.write true] e1
      else
        match send oracle fuel (k + 1) e1 with
        | .ok tr e2 => .ok (.write false :: .errReport :: .sleep :: tr) e2
        | .panicked tr => .panicked (.write false :: .errReport :: .sleep :: tr)
        | .fuelOut => .fuelOut

def countSucc (tr : List SendEvent) : Nat :=
  (tr.filter fun a => a == .write true).length

def countErr (tr : List SendEvent) : Nat :=
  (tr.filter fun a => a == .errReport).length

def countSleep (tr : List SendEvent) : Nat :=
  (tr.filter fun a => a == .sleep).length

/-- Lines 262-263: `cmd.Wait(); pending.entry.send()`.  The occupant pointer
is dereferenced unconditionally: an empty slot is a nil-pointer crash. -/
def shutdownFlush (slot : Option SystemdJournalEntry) (oracle : Nat → Bool) (fuel : Nat) :
    Except String (List SendEvent) :=
  match slot with
  | none => .error "nil pointer dereference"
  | some e =>
    match send oracle fuel 0 e with
    | .ok tr _ => .ok tr
    | .panicked _ => .error "interface conversion"
    | .fuelOut => .error "still retrying"

/-! ## The pending slot's lock discipline (lines 241-250 and 266-281) -/

/-- Atomic actions on the shared `pending` slot, in program order. -/
inductive SlotAction where
  | lock : SlotAction
  | unlock : SlotAction
  | readSlot : SlotAction
  | writeSlot : SlotAction
  | deliver : SlotAction
deriving DecidableEq, Repr

/-- The producer path of `main` (lines 241-250): `Lock`; read the slot; if it
is occupied, `pending.entry.send()` **then** store the new entry, else just
store it; `Unlock`. -/
def producerStep (occupied : Bool) : List SlotAction :=
  [.lock, .readSlot] ++ (if occupied then [.deliver, .writeSlot] else [.writeSlot]) ++ [.unlock]

/-- One wake-up of `writePendingEntry` on the stale path (lines 272-278): the
unlocked staleness check reads the slot, then `Lock`; read and clear the
slot; `Unlock`; deliver the drained occupant. -/
def idleFlushStep : List SlotAction :=
  [.readSlot, .lock, .readSlot, .writeSlot, .unlock, .deliver]

def delivAtDepth : List SlotAction → Nat → Bool
  | [], _ => false
  | a :: r, d =>
    match a with
    | .lock => delivAtDepth r (d + 1)
    | .unlock => delivAtDepth r (d - 1)
    | .deliver => decide (0 < d) || delivAtDepth r d
    | _ => delivAtDepth r d

/-- Whether some delivery in the trace happens while the lock is held. -/
def deliversWhileLocked (tr : List SlotAction) : Bool := delivAtDepth tr 0

/-! ## Spec-side comparison definitions and concrete inputs -/

/-- The universal timestamp pattern as the specification states it:
`YYYY-MM-DD HH:MM:SS[,fraction] ` with date separator `/` or `-` and an
optional fraction of at most three `[,0-9]` characters — i.e. the source
pattern with its repetition read as the intended `{0,3}` (each optional
occurrence modelled by a greedy `?`).  Declared only to compare the
specified behaviour with `starRule`, which Go compiled from the literal
`{0-3}` text. -/
def starRuleSpec : Rule :=
  { anchored := true
    re := catList [.strLit "20".data, .cls ccDigit, .cls ccDigit, .cls ccSlashDash, .cls cc01,
                   .cls ccDigit, .cls ccSlashDash, .cls cc0123, .cls ccDigit, .strLit " ".data,
                   .opt (.cls cc02), .cls ccDigit, .strLit ":".data, .cls cc05, .cls ccDigit,
                   .strLit ":".data, .cls cc05, .cls ccDigit,
                   .opt (.cls ccComma09), .opt (.cls ccComma09), .opt (.cls ccComma09),
                   .strLit " ".data]
    names := [(0, "")] }

/-- The claim's reading of "JSON-shaped": the first two non-space characters
are an opening brace and a double quote, and the length exceeds 64.
Declared only to compare the claimed condition with the source's
`isJsonMessage`, which inspects the first two raw bytes. -/
def specJsonShaped (m : String) : Bool :=
  decide (m.data.length > 64) &&
    (match m.data.dropWhile (fun c => c == ' ') with
     | c0 :: c1 :: _ => c0 == lbraceChar && c1 == '"'
     | _ => false)

/-- The spec's end-to-end example entry (its listed fields; the elided
`...` fields keep their parse defaults). -/
def ePriorityExample : SystemdJournalEntry :=
  { Message := "2024-01-02 03:04:05 [error] disk full", Priority := 6,
    Syslog_identifier := "nginx" }

/-- A dated message from a facility with no registered rule. -/
def eDated : SystemdJournalEntry :=
  { Message := "2024-01-02 03:04:05 hello", Syslog_identifier := "someapp" }

/-- An entry parsed from a line with `"PRIORITY":"99"` and no matching rule. -/
def eRange : SystemdJournalEntry :=
  { Message := "hello", Priority := 99, Syslog_identifier := "someapp" }

/-- An nginx entry whose message contains the bracket pattern twice. -/
def eBrackets : SystemdJournalEntry :=
  { Message := "[error] a [warn] b", Syslog_identifier := "nginx" }

def pad45 : String := "xxxxxxxxxxxxxxxxxxxxxxxxxxxxxxxxxxxxxxxxxxxxx"

def pad60 : String := "yyyyyyyyyyyyyyyyyyyyyyyyyyyyyyyyyyyyyyyyyyyyyyyyyyyyyyyyyyyy"

/-- A 71-character JSON object whose "Message" key holds the number 5. -/
def innerNest : String := "\x7b\"Message\":5,\"Padding\":\"" ++ pad45 ++ "\"\x7d"

/-- A JSON-shaped journal message whose "Message" value is `innerNest`
itself (with its quotes JSON-escaped). -/
def nestedMsg : String :=
  "\x7b\"Message\":\"\x7b\\\"Message\\\":5,\\\"Padding\\\":\\\"" ++ pad45 ++ "\\\"\x7d\"\x7d"

def eNested : SystemdJournalEntry := { Message := nestedMsg }

/-- A valid JSON object preceded by one space: JSON-shaped in the claim's
non-space sense, but not for `isJsonMessage`'s raw-byte test. -/
def spacedJsonMsg : String :=
  " \x7b\"Message\":\"a\",\"FullMessage\":\"b\",\"Padding\":\"" ++ pad60 ++ "\"\x7d"

def eSpaced : SystemdJournalEntry := { Message := spacedJsonMsg }

/-- The same JSON object without the leading space. -/
def jsonMsgW : String :=
  "\x7b\"Message\":\"a\",\"FullMessage\":\"b\",\"Padding\":\"" ++ pad60 ++ "\"\x7d"

def eJsonW : SystemdJournalEntry := { Message := jsonMsgW }

/-- The decoded object of `jsonMsgW`. -/
def oW : List (String × Jval) :=
  [("Message", .str "a"), ("FullMessage", .str "b"), ("Padding", .str pad60)]

/-- A JSON-shaped message whose "Message" value contains an (escaped)
line break. -/
def newlineJsonMsg : String :=
  "\x7b\"Message\":\"a\\nb\",\"Padding\":\"" ++ pad60 ++ "\"\x7d"

def eNewlineJson : SystemdJournalEntry := { Message := newlineJsonMsg }

/-- A plain multi-line entry. -/
def eMultiline : SystemdJournalEntry :=
  { Message := "line one\nline two", Syslog_identifier := "app" }

/-- A plain single-line entry left in the slot at shutdown. -/
def eFlush : SystemdJournalEntry :=
  { Message := "shutdown flush", Syslog_identifier := "app" }

/-! ## Helper lemmas -/

/-- The index of the last "Priority"-named entry of `SubexpNames()`, which is
the one the assignment loop of lines 163-167 leaves in effect. -/
def lastPriority : List (Nat × String) → Option Nat
  | [] => none
  | kn :: rest =>
    match lastPriority rest with
    | some j => some j
    | none => if kn.2 = "Priority" then some kn.1 else none


theorem foldNames_eq (caps : Caps) : ∀ (names : List (Nat × String)) (p : Int),
    foldNames names caps p =
      match lastPriority names with
      | none => p
      | some i => priorities (lowerStr (getCap caps i)) := by
  intro names
  induction names with
  | nil => intro p; rfl
  | cons kn rest ih =>
    intro p
    show foldNames rest caps
        (if kn.2 = "Priority" then priorities (lowerStr (getCap caps kn.1)) else p) = _
    rw [ih]
    cases h : lastPriority rest with
    | some j => simp [lastPriority, h]
    | none => by_cases hk : kn.2 = "Priority" <;> simp [lastPriority, h, hk]

set_option maxHeartbeats 1000000 in
theorem priorities_range (s : String) : 0 ≤ priorities s ∧ priorities s ≤ 7 := by
  unfold priorities
  split_ifs <;> decide

theorem foldNames_range (names : List (Nat × String)) (caps : Caps) (p : Int)
    (h : 0 ≤ p ∧ p ≤ 7) :
    0 ≤ foldNames names caps p ∧ foldNames names caps p ≤ 7 := by
  rw [foldNames_eq]
  cases lastPriority names with
  | none => exact h
  | some i => exact priorities_range _

theorem aget_adel_self (m : List (String × Jval)) (k : String) :
    aget (adel m k) k = none := by
  induction m with
  | nil => rfl
  | cons kv r ih => by_cases h : kv.1 = k <;> simp [adel, aget, h, ih]

theorem aget_adel_ne (m : List (String × Jval)) (k k' : String) (h : k' ≠ k) :
    aget (adel m k) k' = aget m k' := by
  induction m with
  | nil => rfl
  | cons kv r ih =>
    by_cases h1 : kv.1 = k
    · have h2 : ¬ kv.1 = k' := by rw [h1]; exact fun hh => h hh.symm
      simp [adel, aget, h1, h2, ih, Ne.symm h, h]
    · by_cases h2 : kv.1 = k' <;> simp [adel, aget, h1, h2, ih, Ne.symm h, h]

theorem aget_aset_self (m : List (String × Jval)) (k : String) (v : Jval) :
    aget (aset m k v) k = some v := by
  simp [aset, aget]

theorem aget_aset_ne (m : List (String × Jval)) (k : String) (v : Jval) (k' : String)
    (h : k' ≠ k) : aget (aset m k v) k' = aget m k' := by
  have h' : ¬ (k, v).1 = k' := fun hh => h hh.symm
  simp [aset, aget, h', aget_adel_ne m k k' h]

theorem mergeObj_notmem (o : List (String × Jval)) :
    ∀ (base : List (String × Jval)) (k : String), k ∉ o.map Prod.fst →
      aget (mergeObj base o) k = aget base k := by
  induction o with
  | nil => intro base k _; rfl
  | cons kv rest ih =>
    intro base k hk
    have h1 : k ∉ rest.map Prod.fst := fun hh => hk (by simp [hh])
    have h2 : k ≠ kv.1 := fun hh => hk (by simp [hh])
    show aget (mergeObj (aset base kv.1 kv.2) rest) k = aget base k
    rw [ih _ _ h1, aget_aset_ne _ _ _ _ h2]

theorem mergeObj_mem (o : List (String × Jval)) :
    ∀ (base : List (String × Jval)) (k : String) (v : Jval),
      (o.map Prod.fst).Nodup → aget o k = some v →
      aget (mergeObj base o) k = some v := by
  induction o with
  | nil => intro _ _ _ _ hg; cases hg
  | cons kv rest ih =>
    intro base k v hnd hg
    show aget (mergeObj (aset base kv.1 kv.2) rest) k = some v
    by_cases h1 : kv.1 = k
    · have hv : kv.2 = v := by simp [aget, h1] at hg; exact hg
      have hk : k ∉ rest.map Prod.fst := by
        rw [← h1]; exact (List.nodup_cons.mp (by simpa using hnd)).1
      rw [mergeObj_notmem _ _ _ hk, ← h1, aget_aset_self, hv]
    · have hg' : aget rest k = some v := by simpa [aget, h1] using hg
      exact ih _ _ _ (List.nodup_cons.mp (by simpa using hnd)).2 hg'

theorem takeWhile_ne_newline (l : List Char) :
    ((l.takeWhile fun c => c != '\n').any fun c => c == '\n') = false := by
  induction l with
  | nil => rfl
  | cons c l ih =>
    by_cases hc : c = '\n'
    · rw [List.takeWhile_cons_of_neg (by simp [hc])]
      rfl
    · rw [List.takeWhile_cons_of_pos (by simp [hc])]
      simp [hc, ih]

theorem firstLine_no_newline (m : String) : hasNewline (firstLine m) = false :=
  takeWhile_ne_newline m.data

theorem toGelf_not_json (e : SystemdJournalEntry) (h : isJsonStr e.Message = false) :
    ∃ g e1, toGelf e = some (g, e1) := by
  unfold toGelf isJsonMessage
  rw [h]
  cases hn : hasNewline e.Message <;> simp [hn]

/-! ## Claim C8 -/

/-- Claim C8 counterexample: on the producer eviction path the evicted
occupant is delivered while the lock is held — `pending.entry.send()` on
line 246 runs between `Lock()` and `Unlock()` — contradicting the claim
that the lock is never held across a delivery call. -/
theorem c8_producer_delivers_inside_lock :
    deliversWhileLocked (producerStep true) = true := by decide

/-- Claim C8 as amended: the idle-flush actor delivers the drained occupant
outside the lock, and the producer's non-eviction path performs no delivery,
but the producer eviction path delivers the evicted occupant while holding
the lock. -/
theorem c8_lock_delivery_discipline :
    deliversWhileLocked (producerStep false) = false ∧
    deliversWhileLocked (producerStep true) = true ∧
    deliversWhileLocked idleFlushStep = false := by decide

/-! ## Claim C9 -/

/-- Claim C9 counterexample: when the source produced zero entries the slot
is still empty at shutdown, and the final `pending.entry.send()` of line 263
dereferences a nil pointer — the final flush is not safe for every final
slot state. -/
theorem c9_final_flush_crashes_on_empty :
    shutdownFlush none (fun _ => true) 1 = .error "nil pointer dereference" := rfl

theorem send_first_try (oracle : Nat → Bool) (fuel k : Nat) (e : SystemdJournalEntry)
    (g : GelfMessage) (e1 : SystemdJournalEntry)
    (htg : toGelf e = some (g, e1)) (ho : oracle k = true) :
    send oracle (fuel + 1) k e = .ok [.write true] e1 := by
  unfold send
  rw [htg, ho]
  simp

/-- Claim C9 as amended: the shutdown flush delivers the occupant whenever
the slot is occupied (here shown for an entry whose message is not
JSON-shaped, over an immediately accepting transport); when the slot is
empty it crashes instead of being a safe no-op. -/
theorem c9_final_flush_occupied (e : SystemdJournalEntry) (fuel : Nat)
    (h : isJsonStr e.Message = false) :
    shutdownFlush (some e) (fun _ => true) (fuel + 1) = .ok [.write true] := by
  obtain ⟨g, e1, htg⟩ := toGelf_not_json e h
  have hs := send_first_try (fun _ => true) fuel 0 e g e1 htg rfl
  show (match send (fun _ => true) (fuel + 1) 0 e with
        | SendResult.ok tr _ => Except.ok tr
        | SendResult.panicked _ => Except.error "interface conversion"
        | SendResult.fuelOut => Except.error "still retrying") =
      Except.ok [SendEvent.write true]
  rw [hs]

theorem c9_final_flush_occupied_witness :
    shutdownFlush (some eFlush) (fun _ => true) 1 = .ok [.write true] :=
  c9_final_flush_occupied eFlush 0 (by decide)

/-! ## Claim C1 -/

/-- Claim C1 evaluated on the code: for the spec's end-to-end example the
nginx rule's "error" capture does override the parsed PRIORITY 6 with
severity 3, but the short message comes out as
"2024-01-02 03:04:05 disk full", not "disk full": the universal timestamp
pattern's `{0-3}` is literal text in Go's regexp syntax, so the leading
application timestamp is not stripped. -/
theorem c1_nginx_example_keeps_timestamp :
    (process ePriorityExample).Priority = 3 ∧
    (process ePriorityExample).Message = "2024-01-02 03:04:05 disk full" ∧
    (process ePriorityExample).Message ≠ "disk full" := by decide

/-! ## Claim C2 -/

/-- Claim C2 evaluated on the code: a message beginning with the recognized
date-time prefix "2024-01-02 03:04:05 " keeps that prefix through `process`
(here for a facility with no registered rule).  The compiled pattern does
not match the prefix at all; it would only match the bizarre literal form
with "\x7b0-3\x7d " spelled out, whereas the pattern as the specification
states it (`starRuleSpec`, with `\x7b0,3\x7d` repetition semantics) matches
the 20-character prefix. -/
theorem c2_timestamp_prefix_not_stripped :
    (process eDated).Message = "2024-01-02 03:04:05 hello" ∧
    findRuleStr starRule "2024-01-02 03:04:05 hello" = none ∧
    findRuleStr starRule "2024-01-02 03:04:05,\x7b0-3\x7d hello" = some (0, 26, []) ∧
    findRuleStr starRuleSpec "2024-01-02 03:04:05 hello" = some (0, 20, []) :=
  ⟨by decide, by decide, by decide, by decide⟩

/-! ## Claim C3 -/

/-- Claim C3 counterexample: an entry parsed from a line carrying
`"PRIORITY":"99"` whose facility has no rule keeps severity 99 through
normalization — the pipeline does not confine the severity to the 8
standard levels. -/
theorem c3_priority_out_of_range :
    (process eRange).Priority = 99 ∧ ¬ (process eRange).Priority ≤ 7 := by decide

set_option maxHeartbeats 1000000 in
/-- Claim C3 as amended: normalization preserves membership in the 8
standard severity levels — if the parsed severity is in 0..7 (as journald
guarantees for PRIORITY) then the severity after `process` is in 0..7, any
value `process` itself writes being a Severity Table value — and a severity
word outside the table maps to the zero/unset default.  An out-of-range
parsed value, however, passes through untouched (see the counterexample). -/
theorem c3_process_priority_range (e : SystemdJournalEntry)
    (h : 0 ≤ e.Priority ∧ e.Priority ≤ 7) :
    (0 ≤ (process e).Priority ∧ (process e).Priority ≤ 7) ∧
    (∀ s, s ∉ severityWords → priorities s = 0) := by
  constructor
  · unfold process procRule
    split
    · exact h
    · split
      · exact h
      · exact foldNames_range _ _ _ h
  · intro s hs
    unfold priorities
    split_ifs
    all_goals first
      | rfl
      | (subst_vars; exact absurd (by decide) hs)

theorem c3_process_priority_range_witness :
    (0 ≤ (process eFlush).Priority ∧ (process eFlush).Priority ≤ 7) ∧
    (∀ s, s ∉ severityWords → priorities s = 0) :=
  c3_process_priority_range eFlush (by decide)

/-! ## Claim C4 -/

/-- Claim C4 counterexample: for the nginx entry "[error] a [warn] b" the
rule's (first) match is the 8-character span "[error] " capturing "error",
yet `process` yields "a b": `ReplaceAllString` removes every occurrence of
the unanchored pattern, not just the matched span once, so the claimed
result "a [warn] b" is wrong. -/
theorem c4_nginx_removes_all_matches :
    findRuleStr nginxRule (stripStar eBrackets.Message) = some (0, 8, [(1, "error".data)]) ∧
    (process eBrackets).Message = "a b" ∧
    (process eBrackets).Message ≠ "a [warn] b" := by decide

theorem procRule_semantics (e1 : SystemdJournalEntry) (ru : Rule)
    (pos len : Nat) (caps : Caps)
    (h1 : ruleFor e1 = some ru)
    (h2 : findRuleStr ru e1.Message = some (pos, len, caps)) :
    (procRule e1).Message = strReplaceAll ru e1.Message ∧
    (∀ i, lastPriority ru.names = some i →
        (procRule e1).Priority = priorities (lowerStr (getCap caps i))) ∧
    (lastPriority ru.names = none → (procRule e1).Priority = e1.Priority) := by
  unfold procRule
  split
  · rename_i heq
    rw [h1] at heq
    cases heq
  · rename_i ru2 heq
    rw [h1] at heq
    injection heq with hru
    subst hru
    split
    · rename_i heq2
      rw [h2] at heq2
      cases heq2
    · rename_i pls heq2
      rw [h2] at heq2
      injection heq2 with hpls
      subst hpls
      refine ⟨rfl, ?_, ?_⟩
      · intro i hi
        show foldNames ru.names caps e1.Priority = _
        rw [foldNames_eq, hi]
      · intro h0
        show foldNames ru.names caps e1.Priority = _
        rw [foldNames_eq, h0]

/-- Claim C4 as amended: when the facility's rule matches the
timestamp-stripped message, `process` sets the short message to
`ReplaceAllString` of the rule — removing every non-overlapping occurrence
of the pattern, which for the anchored rules is exactly the matched prefix
once but for the unanchored nginx/java rules removes all occurrences, not
only the matched span — and, if the rule names a "Priority" group, the
severity becomes the Severity Table lookup of the lower-cased text that
group captured in the first match (the severity is untouched when no group
is named "Priority"). -/
theorem c4_process_rule_semantics (e : SystemdJournalEntry) (ru : Rule)
    (pos len : Nat) (caps : Caps)
    (h1 : ruleFor { e with Message := stripStar e.Message } = some ru)
    (h2 : findRuleStr ru (stripStar e.Message) = some (pos, len, caps)) :
    (process e).Message = strReplaceAll ru (stripStar e.Message) ∧
    (∀ i, lastPriority ru.names = some i →
        (process e).Priority = priorities (lowerStr (getCap caps i))) ∧
    (lastPriority ru.names = none → (process e).Priority = e.Priority) :=
  procRule_semantics { e with Message := stripStar e.Message } ru pos len caps h1 h2

theorem c4_process_rule_semantics_witness :
    (process eBrackets).Message = strReplaceAll nginxRule (stripStar eBrackets.Message) ∧
    (process eBrackets).Priority = priorities (lowerStr (getCap [(1, "error".data)] 1)) := by
  have h := c4_process_rule_semantics eBrackets nginxRule 0 8 [(1, "error".data)]
    (by decide) (by decide)
  exact ⟨h.1, h.2.1 1 (by decide)⟩

/-! ## Claim C5 -/

/-- Claim C5 counterexample: a valid JSON message preceded by a single
space is JSON-shaped in the claim's "first two non-space characters" sense
and decodes with string "Message"/"FullMessage" keys, yet `isJsonMessage`
(which reads the raw bytes at positions 0 and 1) rejects it, so `toGelf`
keeps the whole text as the short message instead of the "Message" value. -/
theorem c5_shape_checks_raw_bytes :
    specJsonShaped eSpaced.Message = true ∧
    (jsonUnmarshalObj eSpaced.Message).bind (fun ob => aget ob "Message") =
      some (.str "a") ∧
    (jsonUnmarshalObj eSpaced.Message).bind (fun ob => aget ob "FullMessage") =
      some (.str "b") ∧
    isJsonMessage eSpaced = false ∧
    (toGelf eSpaced).map (fun p => p.1.Short) = some eSpaced.Message ∧
    eSpaced.Message ≠ "a" :=
  ⟨rfl, rfl, rfl, rfl, rfl, by decide⟩

/-- Claim C5 as amended: for every entry whose message passes the source's
raw-byte shape test (`Message[0] == '\x7b'`, `Message[1] == '"'`, length over
64 — not the claimed "first two non-space characters") and decodes as a JSON
object with string values at "Message" and "FullMessage", the envelope's
short and full message are those values, neither key remains in the
attributes map, and every other key of the object is present in the map
with its decoded value. -/
theorem c5_toGelf_json_extraction (e : SystemdJournalEntry) (o : List (String × Jval))
    (v1 v2 : String)
    (hshape : isJsonStr e.Message = true)
    (hparse : jsonUnmarshalObj e.Message = some o)
    (hnd : (o.map Prod.fst).Nodup)
    (hm : aget o "Message" = some (.str v1))
    (hf : aget o "FullMessage" = some (.str v2)) :
    ∃ g e1, toGelf e = some (g, e1) ∧ g.Short = v1 ∧ g.Full = v2 ∧
      aget g.Extra "Message" = none ∧ aget g.Extra "FullMessage" = none ∧
      ∀ k v, k ≠ "Message" → k ≠ "FullMessage" → aget o k = some v →
        aget g.Extra k = some v := by
  have hm1 : aget (mergeObj (baseExtra e) o) "Message" = some (.str v1) :=
    mergeObj_mem o (baseExtra e) _ _ hnd hm
  have hf1 : aget (adel (mergeObj (baseExtra e) o) "Message") "FullMessage" =
      some (.str v2) := by
    rw [aget_adel_ne _ _ _ (by decide)]
    exact mergeObj_mem o (baseExtra e) _ _ hnd hf
  refine ⟨mkGelf e v1 v2 (if e.Syslog_identifier = "" then e.Comm else e.Syslog_identifier)
      (adel (adel (mergeObj (baseExtra e) o) "Message") "FullMessage"),
    { e with Message := v1, FullMessage := v2 }, ?_, rfl, rfl, ?_, ?_, ?_⟩
  · unfold toGelf isJsonMessage
    simp only [hshape, eq_self_iff_true, if_true, hparse, extractStr, hm1, hf1]
  · show aget (adel (adel (mergeObj (baseExtra e) o) "Message") "FullMessage") "Message" = none
    rw [aget_adel_ne _ _ _ (by decide), aget_adel_self]
  · show aget (adel (adel (mergeObj (baseExtra e) o) "Message") "FullMessage") "FullMessage" =
      none
    rw [aget_adel_self]
  · intro k v hk1 hk2 hv
    show aget (adel (adel (mergeObj (baseExtra e) o) "Message") "FullMessage") k = some v
    rw [aget_adel_ne _ _ _ hk2, aget_adel_ne _ _ _ hk1]
    exact mergeObj_mem o _ _ _ hnd hv

theorem c5_toGelf_json_extraction_witness :
    ∃ g e1, toGelf eJsonW = some (g, e1) ∧ g.Short = "a" ∧ g.Full = "b" ∧
      aget g.Extra "Message" = none ∧ aget g.Extra "FullMessage" = none ∧
      ∀ k v, k ≠ "Message" → k ≠ "FullMessage" → aget oW k = some v →
        aget g.Extra k = some v :=
  c5_toGelf_json_extraction eJsonW oW "a" "b" (by decide) rfl (by decide) rfl rfl

/-! ## Claim C6 -/

/-- Claim C6 counterexample: a delivered envelope whose short message
contains a line break — the JSON-expansion path installs the decoded
"Message" value verbatim, here "a\nb", so "the short message contains no
line break" does not hold for every delivered envelope. -/
theorem c6_json_short_message_newline :
    (toGelf eNewlineJson).map (fun p => (p.1.Short, hasNewline p.1.Short)) =
      some ("a\nb", true) := rfl

/-- Claim C6 as amended: for every entry whose message is not JSON-shaped
but contains a line break, the envelope's short message is the text before
the first break, the full message is the entire original text, and that
short message contains no line break (a break can still reach the short
message through the JSON-expansion path, per the counterexample). -/
theorem c6_toGelf_newline_split (e : SystemdJournalEntry)
    (h1 : isJsonStr e.Message = false) (h2 : hasNewline e.Message = true) :
    ∃ g e1, toGelf e = some (g, e1) ∧ g.Short = firstLine e.Message ∧
      g.Full = e.Message ∧ hasNewline g.Short = false := by
  refine ⟨mkGelf e (firstLine e.Message) e.Message
      (if e.Syslog_identifier = "" then e.Comm else e.Syslog_identifier) (baseExtra e),
    { e with Message := firstLine e.Message, FullMessage := e.Message },
    ?_, rfl, rfl, firstLine_no_newline _⟩
  unfold toGelf isJsonMessage
  simp only [h1, h2, Bool.false_eq_true, if_false, eq_self_iff_true, if_true]

theorem c6_toGelf_newline_split_witness :
    ∃ g e1, toGelf eMultiline = some (g, e1) ∧ g.Short = firstLine eMultiline.Message ∧
      g.Full = eMultiline.Message ∧ hasNewline g.Short = false :=
  c6_toGelf_newline_split eMultiline (by decide) (by decide)

/-! ## Claim C7 -/

set_option maxRecDepth 10000 in
/-- Claim C7 evaluated on the code: with a transport that fails exactly once
and then accepts, `send` on `eNested` performs one failed hand-off, one
error report and one backoff sleep, and then — instead of the claimed single
successful delivery — panics: the retry re-runs `toGelf` on the mutated
entry, whose new message (the extracted "Message" value, itself JSON-shaped)
decodes with a numeric "Message" key, so the `m.(string)` type assertion
fails and the entry is lost. -/
theorem c7_send_retry_rebuild_panics :
    (toGelf eNested).map (fun p => p.2.Message) = some innerNest ∧
    isJsonStr innerNest = true ∧
    send (fun k => decide (0 < k)) 2 0 eNested =
      .panicked [.write false, .errReport, .sleep] :=
  ⟨rfl, rfl, by decide⟩

/-! ## Claim C10 -/

/-- Claim C10: `process` modifies only the `Message` and `Priority` fields;
every other field of the entry is unchanged. -/
theorem c10_process_frame (e : SystemdJournalEntry) :
    (process e).Cursor = e.Cursor ∧
    (process e).Realtime_timestamp = e.Realtime_timestamp ∧
    (process e).Monotonic_timestamp = e.Monotonic_timestamp ∧
    (process e).Boot_id = e.Boot_id ∧
    (process e).Transport = e.Transport ∧
    (process e).Syslog_facility = e.Syslog_facility ∧
    (process e).Syslog_identifier = e.Syslog_identifier ∧
    (process e).Pid = e.Pid ∧
    (process e).Uid = e.Uid ∧
    (process e).Gid = e.Gid ∧
    (process e).Comm = e.Comm ∧
    (process e).Exe = e.Exe ∧
    (process e).Cmdline = e.Cmdline ∧
    (process e).Systemd_cgroup = e.Systemd_cgroup ∧
    (process e).Systemd_session = e.Systemd_session ∧
    (process e).Systemd_owner_uid = e.Systemd_owner_uid ∧
    (process e).Systemd_unit = e.Systemd_unit ∧
    (process e).Source_realtime_timestamp = e.Source_realtime_timestamp ∧
    (process e).Machine_id = e.Machine_id ∧
    (process e).Hostname = e.Hostname ∧
    (process e).Logger = e.Logger ∧
    (process e).EventId = e.EventId ∧
    (process e).Exception = e.Exception ∧
    (process e).Exception_type = e.Exception_type ∧
    (process e).Exception_Stacktrace = e.Exception_Stacktrace ∧
    (process e).Inner_exception = e.Inner_exception ∧
    (process e).Inner_exception_type = e.Inner_exception_type ∧
    (process e).Inner_exception_Stacktrace = e.Inner_exception_Stacktrace ∧
    (process e).Status_code = e.Status_code ∧
    (process e).Query_string = e.Query_string ∧
    (process e).Member_id = e.Member_id ∧
    (process e).Correlation_id = e.Correlation_id ∧
    (process e).Request_path = e.Request_path ∧
    (process e).Request_id = e.Request_id ∧
    (process e).FullMessage = e.FullMessage := by
  unfold process procRule
  repeat' split
  all_goals repeat' apply And.intro
  all_goals rfl
